import Mathlib

/-!
Shallow embedding of the `fdcan` identifier core (`src/id/internal.rs`):
the packed arbitration-register value `IdReg` (a `u32`, modelled as a
`Nat` with explicit `% 2 ^ 32` where overflow matters), its constructors,
accessors, the RTR toggle, and the priority comparator (`Ord for IdReg`).

The validated identifier value types (`StandardId`, `ExtendedId`, `Id`)
and the message-RAM enums (`IdType`, `RemoteTransmissionRequest`) come
from collaborator modules that are not part of this core; they are
modelled from the spec as plain wrappers / plain enums.
-/

namespace Fdcan

/-- Modelled from the spec: the external collaborator's validated 11-bit
standard CAN identifier (`src/id/api.rs` / `embedded_can::StandardId` is
outside this core).  Wraps the raw value; the collaborator's constructor
enforces the range 0..=0x7FF, so theorems carry that bound as a
hypothesis where it matters. -/
structure StandardId where
  raw : Nat
deriving DecidableEq

/-- Modelled from the spec: the external collaborator's validated 29-bit
extended CAN identifier, range 0..=0x1FFFFFFF. -/
structure ExtendedId where
  raw : Nat
deriving DecidableEq

/-- Modelled from the spec: the base-ID projection of an extended
identifier — its standard-equivalent upper 11 bits (`raw >> 18`). -/
def ExtendedId.standard_id (e : ExtendedId) : StandardId :=
  ⟨e.raw >>> 18⟩

/-- Modelled from the spec: the tagged union over standard and extended
identifier values. -/
inductive Id where
  | Standard (s : StandardId)
  | Extended (e : ExtendedId)
deriving DecidableEq

/-- Modelled from the spec: the message-RAM RTR-frame indicator enum
(`message_ram::enums::RemoteTransmissionRequest`, not part of this core). -/
inductive RemoteTransmissionRequest where
  | TransmitDataFrame
  | TransmitRemoteFrame
deriving DecidableEq

/-- Modelled from the spec: the message-RAM XTD indicator enum
(`message_ram::enums::IdType`). -/
inductive IdType where
  | StandardId
  | ExtendedId
deriving DecidableEq

/-- Embeds `IdReg(u32)`: the packed arbitration register value.  The wrapped
`Nat` stands for the `u32`; derived equality is bit-pattern equality,
matching the derived `PartialEq`/`Eq` on the Rust struct. -/
structure IdReg where
  val : Nat
deriving DecidableEq

def IdReg.STANDARD_SHIFT : Nat := 18

def IdReg.STANDARD_MASK : Nat := 0x1FFC0000

def IdReg.EXTENDED_SHIFT : Nat := 0

def IdReg.EXTENDED_MASK : Nat := 0x1FFFFFFF

def IdReg.XTD_SHIFT : Nat := 30

def IdReg.XTD_MASK : Nat := 1 <<< IdReg.XTD_SHIFT

def IdReg.RTR_SHIFT : Nat := 29

def IdReg.RTR_MASK : Nat := 1 <<< IdReg.RTR_SHIFT

/-- Embeds `IdReg::new_standard`: `Self(u32::from(id.as_raw()) << STANDARD_SHIFT)`.
The `% 2 ^ 32` models the `u32` width of the shift's result. -/
def IdReg.new_standard (id : StandardId) : IdReg :=
  ⟨(id.raw <<< IdReg.STANDARD_SHIFT) % 2 ^ 32⟩

/-- Embeds `IdReg::new_extended`: `Self(id.as_raw() << EXTENDED_SHIFT | (1 << XTD_SHIFT))`. -/
def IdReg.new_extended (id : ExtendedId) : IdReg :=
  ⟨(id.raw <<< IdReg.EXTENDED_SHIFT) ||| (1 <<< IdReg.XTD_SHIFT)⟩

/-- Embeds `IdReg::as_raw_id`: `self.0 & EXTENDED_MASK`. -/
def IdReg.as_raw_id (r : IdReg) : Nat :=
  r.val &&& IdReg.EXTENDED_MASK

/-- Embeds `IdReg::from_register(id, rtr, xtd)`: ORs the raw bits with the flag
bits derived from the two indicators; no masking of `id`. -/
def IdReg.from_register (id : Nat) (rtr : RemoteTransmissionRequest)
    (xtd : IdType) : IdReg :=
  let rtrBits : Nat :=
    match rtr with
    | .TransmitDataFrame => 0
    | .TransmitRemoteFrame => 1 <<< IdReg.RTR_SHIFT
  let xtdBits : Nat :=
    match xtd with
    | .StandardId => 0
    | .ExtendedId => 1 <<< IdReg.XTD_SHIFT
  ⟨id ||| rtrBits ||| xtdBits⟩

/-- Embeds `IdReg::with_rtr`: sets the RTR bit (`self.0 | (1 << RTR_SHIFT)`) or
clears it (`self.0 & !RTR_MASK`; the `u32` complement of `RTR_MASK` is
the constant `0xDFFFFFFF`).  Takes `self` by value and returns a new
value (no mutation of the receiver). -/
def IdReg.with_rtr (r : IdReg) (rtr : Bool) : IdReg :=
  if rtr then ⟨r.val ||| (1 <<< IdReg.RTR_SHIFT)⟩
  else ⟨r.val &&& 0xDFFFFFFF⟩

/-- Embeds `IdReg::is_extended`: `(self.0 & XTD_MASK) != 0`. -/
def IdReg.is_extended (r : IdReg) : Bool :=
  r.val &&& IdReg.XTD_MASK != 0

/-- Embeds `IdReg::is_standard`: `!self.is_extended()`. -/
def IdReg.is_standard (r : IdReg) : Bool :=
  !r.is_extended

/-- Embeds `IdReg::rtr`: `self.0 & RTR_MASK != 0`. -/
def IdReg.rtr (r : IdReg) : Bool :=
  r.val &&& IdReg.RTR_MASK != 0

/-- Embeds `IdReg::to_id`: extended ⇒ `ExtendedId::new_unchecked((self.0 & EXTENDED_MASK) >> EXTENDED_SHIFT)`;
standard ⇒ `StandardId::new_unchecked(((self.0 & STANDARD_MASK) >> STANDARD_SHIFT) as u16)`.
The `% 2 ^ 16` models the `as u16` cast. -/
def IdReg.to_id (r : IdReg) : Id :=
  if r.is_extended then
    Id.Extended ⟨(r.val &&& IdReg.EXTENDED_MASK) >>> IdReg.EXTENDED_SHIFT⟩
  else
    Id.Standard ⟨((r.val &&& IdReg.STANDARD_MASK) >>> IdReg.STANDARD_SHIFT) % 2 ^ 16⟩

/-- Embeds `From<Id> for IdReg`. -/
def idRegFromId : Id → IdReg
  | .Standard s => IdReg.new_standard s
  | .Extended e => IdReg.new_extended e

/-- Embeds `From<IdReg> for Id`. -/
def idFromIdReg (r : IdReg) : Id :=
  r.to_id

/-- Embeds `From<IdReg> for IdType`. -/
def idTypeFromIdReg (r : IdReg) : IdType :=
  if r.is_standard then .StandardId else .ExtendedId

/-- Embeds `From<IdReg> for RemoteTransmissionRequest`. -/
def rtrFromIdReg (r : IdReg) : RemoteTransmissionRequest :=
  if r.rtr then .TransmitRemoteFrame else .TransmitDataFrame

/-- Embeds `From<Id> for IdType` (via the per-variant `From` impls). -/
def idTypeFromId : Id → IdType
  | .Standard _ => .StandardId
  | .Extended _ => .ExtendedId

/-- Embeds `Ord for IdReg::cmp`: priority order.  `Ordering.swap` models Rust's
`Ordering::reverse`, `Ordering.then` models `Ordering::then`. -/
def IdReg.cmp (a b : IdReg) : Ordering :=
  let rtro := (compare a.rtr b.rtr).swap
  match a.to_id, b.to_id with
  | .Standard sa, .Standard sb =>
      ((compare sa.raw sb.raw).swap).then rtro
  | .Extended ea, .Extended eb =>
      ((compare ea.raw eb.raw).swap).then rtro
  | .Standard sa, .Extended eb =>
      ((compare sa.raw eb.standard_id.raw).swap).then Ordering.gt
  | .Extended ea, .Standard sb =>
      ((compare ea.standard_id.raw sb.raw).swap).then Ordering.lt

/-- The raw identifier value of the identifier a register value extracts to:
the 11-bit value for a standard-kind register, the 29-bit value for an
extended-kind register. -/
def idRawOf (r : IdReg) : Nat :=
  match r.to_id with
  | .Standard s => s.raw
  | .Extended e => e.raw

/-- The collaborator's range invariant on identifier values: standard
identifiers are at most `0x7FF`, extended identifiers at most `0x1FFFFFFF`.
This is the precondition of the validation-bypassing (`new_unchecked`)
constructors used by `to_id`. -/
def validId : Id → Prop
  | .Standard s => s.raw ≤ 0x7FF
  | .Extended e => e.raw ≤ 0x1FFFFFFF

instance : DecidablePred validId
  | .Standard s => inferInstanceAs (Decidable (s.raw ≤ 0x7FF))
  | .Extended e => inferInstanceAs (Decidable (e.raw ≤ 0x1FFFFFFF))

/-- The boolean RTR flag a `RemoteTransmissionRequest` indicator denotes. -/
def rtrToBool : RemoteTransmissionRequest → Bool
  | .TransmitDataFrame => false
  | .TransmitRemoteFrame => true

/-- The 11-bit value the standard-extract branch of `to_id` produces; also
the base-ID projection of the extended-extract branch (`as_raw_id >> 18`). -/
def IdReg.pr (r : IdReg) : Nat :=
  r.as_raw_id >>> 18

/-- Priority key: `cmp a b` is the reversed numeric comparison of the keys.
Lexicographically: 11-bit projection, then kind (standard before extended),
then (for extended) the low 18 identifier bits, then the RTR bit. -/
def IdReg.key (r : IdReg) : Nat :=
  (r.pr * 2 + r.is_extended.toNat) * 2 ^ 19 +
    ((if r.is_extended then r.as_raw_id % 2 ^ 18 else 0) * 2 + r.rtr.toNat)

/-! ### Generic helpers about `Ordering` and `compare` -/

lemma then_lt (o : Ordering) : Ordering.lt.then o = .lt := rfl

lemma then_gt (o : Ordering) : Ordering.gt.then o = .gt := rfl

lemma then_eq (o : Ordering) : Ordering.eq.then o = o := rfl

lemma then_assoc (a b c : Ordering) : (a.then b).then c = a.then (b.then c) := by
  cases a <;> rfl

lemma bool_compare_swap (x y : Bool) :
    (compare x y).swap = compare y.toNat x.toNat := by
  cases x <;> cases y <;> rfl

lemma compare_add_left (c x y : Nat) : compare (c + x) (c + y) = compare x y := by
  rcases Nat.lt_trichotomy x y with h | h | h
  · rw [Nat.compare_eq_lt.mpr h, Nat.compare_eq_lt.mpr (by omega)]
  · subst h
    rw [Nat.compare_eq_eq.mpr rfl, Nat.compare_eq_eq.mpr rfl]
  · rw [Nat.compare_eq_gt.mpr h, Nat.compare_eq_gt.mpr (by omega)]

/-- Lexicographic splitting of a base-`M` comparison. -/
lemma compare_mul_add (M a b x y : Nat) (hx : x < M) (hy : y < M) :
    compare (a * M + x) (b * M + y) = (compare a b).then (compare x y) := by
  rcases Nat.lt_trichotomy a b with h | h | h
  · have hab : a * M + x < b * M + y :=
      calc a * M + x < a * M + M := Nat.add_lt_add_left hx _
        _ = (a + 1) * M := by ring
        _ ≤ b * M := Nat.mul_le_mul_right M h
        _ ≤ b * M + y := Nat.le_add_right _ _
    rw [Nat.compare_eq_lt.mpr hab, Nat.compare_eq_lt.mpr h, then_lt]
  · subst h
    rw [compare_add_left, Nat.compare_eq_eq.mpr rfl, then_eq]
  · have hab : b * M + y < a * M + x :=
      calc b * M + y < b * M + M := Nat.add_lt_add_left hy _
        _ = (b + 1) * M := by ring
        _ ≤ a * M := Nat.mul_le_mul_right M h
        _ ≤ a * M + x := Nat.le_add_right _ _
    rw [Nat.compare_eq_gt.mpr hab, Nat.compare_eq_gt.mpr h, then_gt]

/-! ### Generic bitwise helpers -/

lemma shiftRight_and (x y n : Nat) : (x &&& y) >>> n = (x >>> n) &&& (y >>> n) := by
  apply Nat.eq_of_testBit_eq
  intro i
  simp [Nat.testBit_shiftRight, Nat.testBit_and]

lemma shiftRight_or (x y n : Nat) : (x ||| y) >>> n = (x >>> n) ||| (y >>> n) := by
  apply Nat.eq_of_testBit_eq
  intro i
  simp [Nat.testBit_shiftRight, Nat.testBit_or]

lemma and_two_pow_eq_zero {x i : Nat} (h : x.testBit i = false) : x &&& 2 ^ i = 0 := by
  rw [Nat.and_two_pow, h]
  simp

lemma and_two_pow_ne_zero {x i : Nat} (h : x.testBit i = true) : x &&& 2 ^ i ≠ 0 := by
  rw [Nat.and_two_pow, h]
  simp [Nat.pos_iff_ne_zero.mp (Nat.two_pow_pos i)]

/-! ### Normal forms for `to_id` and `cmp` -/

lemma as_raw_id_lt (r : IdReg) : r.as_raw_id < 2 ^ 29 := by
  have h : r.as_raw_id ≤ 0x1FFFFFFF := Nat.and_le_right
  omega

lemma pr_lt (r : IdReg) : r.pr < 2 ^ 11 := by
  have h := as_raw_id_lt r
  rw [IdReg.pr, Nat.shiftRight_eq_div_pow]
  omega

lemma pr_decomp (r : IdReg) : r.as_raw_id = r.pr * 2 ^ 18 + r.as_raw_id % 2 ^ 18 := by
  rw [IdReg.pr, Nat.shiftRight_eq_div_pow]
  omega

/-- The standard branch of `to_id` extracts exactly `pr`; in particular the
`STANDARD_MASK`/shift pipeline and the `as u16` cast lose nothing. -/
lemma std_extract_eq_pr (r : IdReg) :
    ((r.val &&& IdReg.STANDARD_MASK) >>> IdReg.STANDARD_SHIFT) % 2 ^ 16 = r.pr := by
  have h1 : (r.val &&& IdReg.STANDARD_MASK) >>> IdReg.STANDARD_SHIFT
      = (r.val >>> 18) &&& 0x7FF := by
    rw [IdReg.STANDARD_MASK, IdReg.STANDARD_SHIFT, shiftRight_and]
    norm_num [Nat.shiftRight_eq_div_pow]
  have h2 : r.pr = (r.val >>> 18) &&& 0x7FF := by
    rw [IdReg.pr, IdReg.as_raw_id, IdReg.EXTENDED_MASK, shiftRight_and]
    norm_num [Nat.shiftRight_eq_div_pow]
  have h3 : (r.val >>> 18) &&& 0x7FF ≤ 0x7FF := Nat.and_le_right
  rw [h1, h2]
  omega

lemma to_id_eq (r : IdReg) :
    r.to_id = if r.is_extended then Id.Extended ⟨r.as_raw_id⟩ else Id.Standard ⟨r.pr⟩ := by
  rw [IdReg.to_id, std_extract_eq_pr]
  rfl

/-- Unfolds `cmp` by cases on the two XTD flags: same-kind comparisons reverse the raw
identifier comparison and fall back to the reversed RTR comparison; cross-kind
comparisons compare the 11-bit projections and break ties toward standard. -/
lemma cmp_cases (a b : IdReg) :
    IdReg.cmp a b =
      match a.is_extended, b.is_extended with
      | false, false => ((compare a.pr b.pr).swap).then ((compare a.rtr b.rtr).swap)
      | true, true =>
          ((compare a.as_raw_id b.as_raw_id).swap).then ((compare a.rtr b.rtr).swap)
      | false, true => ((compare a.pr b.pr).swap).then Ordering.gt
      | true, false => ((compare a.pr b.pr).swap).then Ordering.lt := by
  rw [IdReg.cmp, to_id_eq a, to_id_eq b]
  cases ha : a.is_extended <;> cases hb : b.is_extended <;>
    simp [ExtendedId.standard_id, IdReg.pr]

lemma cmp_ss (a b : IdReg) (ha : a.is_extended = false) (hb : b.is_extended = false) :
    IdReg.cmp a b = ((compare a.pr b.pr).swap).then ((compare a.rtr b.rtr).swap) := by
  rw [cmp_cases, ha, hb]

lemma cmp_ee (a b : IdReg) (ha : a.is_extended = true) (hb : b.is_extended = true) :
    IdReg.cmp a b
      = ((compare a.as_raw_id b.as_raw_id).swap).then ((compare a.rtr b.rtr).swap) := by
  rw [cmp_cases, ha, hb]

lemma cmp_se (a b : IdReg) (ha : a.is_extended = false) (hb : b.is_extended = true) :
    IdReg.cmp a b = ((compare a.pr b.pr).swap).then Ordering.gt := by
  rw [cmp_cases, ha, hb]

lemma cmp_es (a b : IdReg) (ha : a.is_extended = true) (hb : b.is_extended = false) :
    IdReg.cmp a b = ((compare a.pr b.pr).swap).then Ordering.lt := by
  rw [cmp_cases, ha, hb]

lemma key_std (r : IdReg) (h : r.is_extended = false) :
    r.key = r.pr * 2 ^ 20 + r.rtr.toNat := by
  simp only [IdReg.key, h, Bool.toNat_false, Bool.false_eq_true, if_false]
  ring

lemma key_ext (r : IdReg) (h : r.is_extended = true) :
    r.key = r.pr * 2 ^ 20 + (2 ^ 19 + (r.as_raw_id % 2 ^ 18 * 2 + r.rtr.toNat)) := by
  simp only [IdReg.key, h, Bool.toNat_true, if_true]
  ring

lemma cmp_eq_compare_key (a b : IdReg) : IdReg.cmp a b = compare b.key a.key := by
  have hra := Bool.toNat_lt a.rtr
  have hrb := Bool.toNat_lt b.rtr
  have hla : a.as_raw_id % 2 ^ 18 < 2 ^ 18 := Nat.mod_lt _ (by norm_num)
  have hlb : b.as_raw_id % 2 ^ 18 < 2 ^ 18 := Nat.mod_lt _ (by norm_num)
  cases ha : a.is_extended <;> cases hb : b.is_extended
  · -- both standard: key r = pr * 2^20 + rtr bit
    rw [cmp_ss a b ha hb, key_std a ha, key_std b hb,
      compare_mul_add (2 ^ 20) _ _ _ _ (by omega) (by omega),
      Nat.compare_swap, bool_compare_swap]
  · -- a standard, b extended
    rw [cmp_se a b ha hb, key_std a ha, key_ext b hb,
      compare_mul_add (2 ^ 20) _ _ _ _ (by omega) (by omega),
      Nat.compare_swap,
      Nat.compare_eq_gt.mpr
        (show a.rtr.toNat < 2 ^ 19 + (b.as_raw_id % 2 ^ 18 * 2 + b.rtr.toNat) by omega)]
  · -- a extended, b standard
    rw [cmp_es a b ha hb, key_ext a ha, key_std b hb,
      compare_mul_add (2 ^ 20) _ _ _ _ (by omega) (by omega),
      Nat.compare_swap,
      Nat.compare_eq_lt.mpr
        (show b.rtr.toNat < 2 ^ 19 + (a.as_raw_id % 2 ^ 18 * 2 + a.rtr.toNat) by omega)]
  · -- both extended
    rw [cmp_ee a b ha hb, key_ext a ha, key_ext b hb,
      compare_mul_add (2 ^ 20) _ _ _ _ (by omega) (by omega),
      compare_add_left, compare_mul_add 2 _ _ _ _ hrb hra, ← then_assoc,
      ← compare_mul_add (2 ^ 18) _ _ _ _ hlb hla, ← pr_decomp, ← pr_decomp,
      Nat.compare_swap, bool_compare_swap]

/-! ### Flag bits as `testBit`, and mask arithmetic -/

lemma XTD_MASK_eq : IdReg.XTD_MASK = 2 ^ 30 := by decide

lemma RTR_MASK_eq : IdReg.RTR_MASK = 2 ^ 29 := by decide

lemma EXTENDED_MASK_eq : IdReg.EXTENDED_MASK = 2 ^ 29 - 1 := by decide

lemma is_extended_eq_testBit (r : IdReg) : r.is_extended = r.val.testBit 30 := by
  rw [IdReg.is_extended, XTD_MASK_eq, Nat.and_two_pow]
  cases h : r.val.testBit 30 <;> simp

lemma rtr_eq_testBit (r : IdReg) : r.rtr = r.val.testBit 29 := by
  rw [IdReg.rtr, RTR_MASK_eq, Nat.and_two_pow]
  cases h : r.val.testBit 29 <;> simp

/-- ORing in a power of two above a value is plain addition. -/
lemma or_two_pow_eq_add {w i : Nat} (hw : w < 2 ^ i) : w ||| 2 ^ i = 2 ^ i + w := by
  apply Nat.eq_of_testBit_eq
  intro j
  rcases Nat.lt_trichotomy j i with h | h | h
  · rw [Nat.testBit_or, Nat.testBit_two_pow_of_ne (by omega),
      Nat.testBit_two_pow_add_gt h w, Bool.or_false]
  · subst h
    rw [Nat.testBit_or, Nat.testBit_two_pow_self, Nat.testBit_two_pow_add_eq,
      Nat.testBit_lt_two_pow hw, Bool.or_true]
    rfl
  · have hij : 2 ^ i < 2 ^ j := Nat.pow_lt_pow_right (by norm_num) h
    have h1 : 2 ^ i ≤ 2 ^ j / 2 := by
      have : 2 ^ (i + 1) ≤ 2 ^ j := Nat.pow_le_pow_right (by norm_num) (by omega)
      rw [Nat.pow_succ] at this
      omega
    rw [Nat.testBit_or, Nat.testBit_two_pow_of_ne (by omega),
      Nat.testBit_lt_two_pow (by omega), Nat.testBit_lt_two_pow (by omega), Bool.or_false]

/-- Clearing the RTR bit touches nothing below or above it (within `u32`). -/
lemma testBit_notRtrMask : ∀ i, i < 32 → i ≠ 29 → Nat.testBit 0xDFFFFFFF i = true := by
  decide

lemma testBit_notRtrMask_29 : Nat.testBit 0xDFFFFFFF 29 = false := by decide

lemma and_notRtrMask_eq_self {x : Nat} (h32 : x < 2 ^ 32) (h29 : x.testBit 29 = false) :
    x &&& 0xDFFFFFFF = x := by
  apply Nat.eq_of_testBit_eq
  intro i
  rw [Nat.testBit_and]
  rcases Nat.lt_or_ge i 32 with hi | hi
  · by_cases h : i = 29
    · subst h
      rw [h29, Bool.false_and]
    · rw [testBit_notRtrMask i hi h, Bool.and_true]
  · have : x.testBit i = false :=
      Nat.testBit_lt_two_pow (lt_of_lt_of_le h32 (Nat.pow_le_pow_right (by norm_num) hi))
    rw [this, Bool.false_and]

/-! ### Effect of `with_rtr` and `from_register` on the extracted fields -/

lemma with_rtr_as_raw_id (r : IdReg) (b : Bool) :
    (r.with_rtr b).as_raw_id = r.as_raw_id := by
  cases b
  · show (r.val &&& 0xDFFFFFFF) &&& IdReg.EXTENDED_MASK = r.val &&& IdReg.EXTENDED_MASK
    have h : (0xDFFFFFFF : Nat) &&& IdReg.EXTENDED_MASK = IdReg.EXTENDED_MASK := by decide
    rw [Nat.and_assoc, h]
  · show (r.val ||| 1 <<< IdReg.RTR_SHIFT) &&& IdReg.EXTENDED_MASK
        = r.val &&& IdReg.EXTENDED_MASK
    rw [Nat.and_distrib_right]
    have h : (1 <<< IdReg.RTR_SHIFT) &&& IdReg.EXTENDED_MASK = 0 := by decide
    rw [h, Nat.or_zero]

lemma with_rtr_is_extended (r : IdReg) (b : Bool) :
    (r.with_rtr b).is_extended = r.is_extended := by
  rw [is_extended_eq_testBit, is_extended_eq_testBit]
  cases b
  · show ((r.val &&& 0xDFFFFFFF).testBit 30) = r.val.testBit 30
    rw [Nat.testBit_and]
    have h : Nat.testBit 0xDFFFFFFF 30 = true := by decide
    rw [h, Bool.and_true]
  · show ((r.val ||| 1 <<< IdReg.RTR_SHIFT).testBit 30) = r.val.testBit 30
    rw [Nat.testBit_or]
    have h : Nat.testBit (1 <<< IdReg.RTR_SHIFT) 30 = false := by decide
    rw [h, Bool.or_false]

lemma with_rtr_rtr (r : IdReg) (b : Bool) : (r.with_rtr b).rtr = b := by
  rw [rtr_eq_testBit]
  cases b
  · show ((r.val &&& 0xDFFFFFFF).testBit 29) = false
    rw [Nat.testBit_and, testBit_notRtrMask_29, Bool.and_false]
  · show ((r.val ||| 1 <<< IdReg.RTR_SHIFT).testBit 29) = true
    rw [Nat.testBit_or]
    have h : Nat.testBit (1 <<< IdReg.RTR_SHIFT) 29 = true := by decide
    rw [h, Bool.or_true]

/-- Extraction (`to_id`) only looks at the low 29 bits and the XTD flag. -/
lemma to_id_congr (r s : IdReg) (h1 : r.as_raw_id = s.as_raw_id)
    (h2 : r.is_extended = s.is_extended) : r.to_id = s.to_id := by
  rw [to_id_eq, to_id_eq, h2, IdReg.pr, IdReg.pr, h1]

lemma with_rtr_to_id (r : IdReg) (b : Bool) : (r.with_rtr b).to_id = r.to_id :=
  to_id_congr _ _ (with_rtr_as_raw_id r b) (with_rtr_is_extended r b)

lemma from_register_as_raw_id (x : Nat) (rf : RemoteTransmissionRequest) (xt : IdType) :
    (IdReg.from_register x rf xt).as_raw_id = x &&& IdReg.EXTENDED_MASK := by
  have h29 : (1 <<< IdReg.RTR_SHIFT) &&& IdReg.EXTENDED_MASK = 0 := by decide
  have h30 : (1 <<< IdReg.XTD_SHIFT) &&& IdReg.EXTENDED_MASK = 0 := by decide
  cases rf <;> cases xt <;>
    simp [IdReg.from_register, IdReg.as_raw_id, Nat.and_distrib_right, h29, h30]

lemma from_register_is_extended (x : Nat) (rf : RemoteTransmissionRequest) :
    ∀ xt, (IdReg.from_register x rf xt).is_extended
      = (x.testBit 30 || decide (xt = IdType.ExtendedId)) := by
  have h29 : Nat.testBit (1 <<< IdReg.RTR_SHIFT) 30 = false := by decide
  have h30 : Nat.testBit (1 <<< IdReg.XTD_SHIFT) 30 = true := by decide
  intro xt
  cases rf <;> cases xt <;>
    simp [IdReg.from_register, is_extended_eq_testBit, Nat.testBit_or, h29, h30]

lemma from_register_rtr (x : Nat) (xt : IdType) :
    ∀ rf, (IdReg.from_register x rf xt).rtr
      = (x.testBit 29 || decide (rf = RemoteTransmissionRequest.TransmitRemoteFrame)) := by
  have h29 : Nat.testBit (1 <<< IdReg.RTR_SHIFT) 29 = true := by decide
  have h30 : Nat.testBit (1 <<< IdReg.XTD_SHIFT) 29 = false := by decide
  intro rf
  cases rf <;> cases xt <;>
    simp [IdReg.from_register, rtr_eq_testBit, Nat.testBit_or, h29, h30]

/-! ### Normal forms for the packing constructors -/

lemma new_standard_val {v : Nat} (hv : v ≤ 0x7FF) :
    (IdReg.new_standard ⟨v⟩).val = v * 2 ^ 18 := by
  show (v <<< IdReg.STANDARD_SHIFT) % 2 ^ 32 = v * 2 ^ 18
  rw [IdReg.STANDARD_SHIFT, Nat.shiftLeft_eq]
  exact Nat.mod_eq_of_lt (by omega)

lemma new_extended_val {w : Nat} (hw : w ≤ 0x1FFFFFFF) :
    (IdReg.new_extended ⟨w⟩).val = 2 ^ 30 + w := by
  show (w <<< IdReg.EXTENDED_SHIFT) ||| (1 <<< IdReg.XTD_SHIFT) = 2 ^ 30 + w
  have h : (1 <<< IdReg.XTD_SHIFT : Nat) = 2 ^ 30 := by decide
  rw [IdReg.EXTENDED_SHIFT, Nat.shiftLeft_zero, h]
  exact or_two_pow_eq_add (by omega)

lemma new_standard_is_extended {v : Nat} (hv : v ≤ 0x7FF) :
    (IdReg.new_standard ⟨v⟩).is_extended = false := by
  rw [is_extended_eq_testBit, new_standard_val hv]
  exact Nat.testBit_lt_two_pow (by omega)

lemma new_standard_rtr {v : Nat} (hv : v ≤ 0x7FF) :
    (IdReg.new_standard ⟨v⟩).rtr = false := by
  rw [rtr_eq_testBit, new_standard_val hv]
  exact Nat.testBit_lt_two_pow (by omega)

lemma new_standard_pr {v : Nat} (hv : v ≤ 0x7FF) :
    (IdReg.new_standard ⟨v⟩).pr = v := by
  rw [IdReg.pr, IdReg.as_raw_id, new_standard_val hv, EXTENDED_MASK_eq,
    Nat.and_pow_two_sub_one_eq_mod, Nat.shiftRight_eq_div_pow]
  omega

lemma new_extended_is_extended {w : Nat} (hw : w ≤ 0x1FFFFFFF) :
    (IdReg.new_extended ⟨w⟩).is_extended = true := by
  rw [is_extended_eq_testBit, new_extended_val hw, Nat.testBit_two_pow_add_eq,
    Nat.testBit_lt_two_pow (by omega)]
  rfl

lemma new_extended_rtr {w : Nat} (hw : w ≤ 0x1FFFFFFF) :
    (IdReg.new_extended ⟨w⟩).rtr = false := by
  rw [rtr_eq_testBit, new_extended_val hw, Nat.testBit_two_pow_add_gt (by omega)]
  exact Nat.testBit_lt_two_pow (by omega)

lemma new_extended_as_raw_id {w : Nat} (hw : w ≤ 0x1FFFFFFF) :
    (IdReg.new_extended ⟨w⟩).as_raw_id = w := by
  rw [IdReg.as_raw_id, new_extended_val hw, EXTENDED_MASK_eq,
    Nat.and_pow_two_sub_one_eq_mod]
  omega

lemma new_standard_to_id {v : Nat} (hv : v ≤ 0x7FF) :
    (IdReg.new_standard ⟨v⟩).to_id = Id.Standard ⟨v⟩ := by
  simp [to_id_eq, new_standard_is_extended hv, new_standard_pr hv]

lemma new_extended_to_id {w : Nat} (hw : w ≤ 0x1FFFFFFF) :
    (IdReg.new_extended ⟨w⟩).to_id = Id.Extended ⟨w⟩ := by
  simp [to_id_eq, new_extended_is_extended hw, new_extended_as_raw_id hw]

lemma idRawOf_std (r : IdReg) (h : r.is_extended = false) : idRawOf r = r.pr := by
  simp [idRawOf, to_id_eq, h]

lemma idRawOf_ext (r : IdReg) (h : r.is_extended = true) : idRawOf r = r.as_raw_id := by
  simp [idRawOf, to_id_eq, h]

lemma val_inj {x y : IdReg} (h : x.val = y.val) : x = y := by
  cases x
  cases y
  simpa using h

lemma as_raw_id_and_em (r : IdReg) :
    r.as_raw_id &&& IdReg.EXTENDED_MASK = r.as_raw_id := by
  rw [IdReg.as_raw_id, Nat.and_assoc, Nat.and_self]

/-! ### Claim theorems -/

/-- C1: comparing a standard-kind register value against an extended-kind one
compares the standard raw value with the extended value's base-ID projection
(upper 11 bits): strictly smaller or equal standard value means the standard
value compares greater; strictly larger means the extended value compares
greater. -/
theorem cmp_standard_extended_spec (a b : IdReg) (sa : StandardId) (eb : ExtendedId)
    (hsa : a.to_id = Id.Standard sa) (heb : b.to_id = Id.Extended eb) :
    (sa.raw < eb.standard_id.raw → IdReg.cmp a b = .gt ∧ IdReg.cmp b a = .lt) ∧
    (sa.raw = eb.standard_id.raw → IdReg.cmp a b = .gt ∧ IdReg.cmp b a = .lt) ∧
    (eb.standard_id.raw < sa.raw → IdReg.cmp a b = .lt ∧ IdReg.cmp b a = .gt) := by
  have ha : a.is_extended = false := by
    cases hx : a.is_extended
    · rfl
    · rw [to_id_eq, hx, if_pos rfl] at hsa
      simp at hsa
  have hb : b.is_extended = true := by
    cases hx : b.is_extended
    · rw [to_id_eq, hx, if_neg Bool.false_ne_true] at heb
      simp at heb
    · rfl
  rw [to_id_eq, ha, if_neg Bool.false_ne_true] at hsa
  rw [to_id_eq, hb, if_pos rfl] at heb
  injection hsa with hsa'
  injection heb with heb'
  subst hsa'
  subst heb'
  rw [cmp_se a b ha hb, cmp_es b a hb ha]
  refine ⟨fun h => ⟨?_, ?_⟩, fun h => ⟨?_, ?_⟩, fun h => ⟨?_, ?_⟩⟩
  · rw [Nat.compare_eq_lt.mpr (show a.pr < b.pr from h)]
    rfl
  · rw [Nat.compare_eq_gt.mpr (show a.pr < b.pr from h)]
    rfl
  · rw [Nat.compare_eq_eq.mpr (show a.pr = b.pr from h)]
    rfl
  · rw [Nat.compare_eq_eq.mpr (show b.pr = a.pr from h.symm)]
    rfl
  · rw [Nat.compare_eq_gt.mpr (show b.pr < a.pr from h)]
    rfl
  · rw [Nat.compare_eq_lt.mpr (show b.pr < a.pr from h)]
    rfl

/-- C1 witness: Standard 0x100 against Extended with the same base ID
(0x100 << 18): the standard value compares greater both ways around. -/
theorem cmp_standard_extended_spec_witness :
    IdReg.cmp ⟨0x100 <<< 18⟩ (IdReg.new_extended ⟨0x100 <<< 18⟩) = .gt ∧
    IdReg.cmp (IdReg.new_extended ⟨0x100 <<< 18⟩) ⟨0x100 <<< 18⟩ = .lt :=
  (cmp_standard_extended_spec ⟨0x100 <<< 18⟩ (IdReg.new_extended ⟨0x100 <<< 18⟩)
    ⟨0x100⟩ ⟨0x100 <<< 18⟩ (by decide) (by decide)).2.1 (by decide)

/-- C2 counterexample: the register values `2^31` and `0` are bit-distinct
(so `a == b` fails), yet the comparator returns `eq` — neither `a < b`,
`a == b`, nor `a > b` holds, falsifying the exactly-one claim stated with
derived (bit-pattern) equality. -/
theorem cmp_trichotomy_counterexample :
    (IdReg.mk (2 ^ 31)) ≠ ⟨0⟩ ∧ IdReg.cmp ⟨2 ^ 31⟩ ⟨0⟩ ≠ .lt ∧
    IdReg.cmp ⟨2 ^ 31⟩ ⟨0⟩ ≠ .gt ∧ IdReg.cmp ⟨2 ^ 31⟩ ⟨0⟩ = .eq := by
  decide

/-- C2 (amended): for all register values exactly one of `cmp a b = lt`,
`cmp a b = eq`, `cmp a b = gt` holds — with comparison-equality (`cmp = eq`)
in place of bit-pattern equality, which the comparator does not refine —
and strict-less (`cmp = lt`) is transitive. -/
theorem cmp_strict_total_order (a b c : IdReg) :
    ((IdReg.cmp a b = .lt ∧ IdReg.cmp a b ≠ .eq ∧ IdReg.cmp a b ≠ .gt) ∨
      (IdReg.cmp a b ≠ .lt ∧ IdReg.cmp a b = .eq ∧ IdReg.cmp a b ≠ .gt) ∨
      (IdReg.cmp a b ≠ .lt ∧ IdReg.cmp a b ≠ .eq ∧ IdReg.cmp a b = .gt)) ∧
    (IdReg.cmp a b = .lt → IdReg.cmp b c = .lt → IdReg.cmp a c = .lt) := by
  constructor
  · cases h : IdReg.cmp a b
    · exact Or.inl ⟨rfl, by simp, by simp⟩
    · exact Or.inr (Or.inl ⟨by simp, rfl, by simp⟩)
    · exact Or.inr (Or.inr ⟨by simp, by simp, rfl⟩)
  · intro h1 h2
    rw [cmp_eq_compare_key] at h1 h2 ⊢
    exact Nat.compare_eq_lt.mpr
      (lt_trans (Nat.compare_eq_lt.mp h2) (Nat.compare_eq_lt.mp h1))

/-- C2 witness: a concrete transitivity instance — standard IDs 2, 1, 0,
where higher raw IDs compare (priority-)less. -/
theorem cmp_strict_total_order_witness :
    IdReg.cmp ⟨2 <<< 18⟩ ⟨1 <<< 18⟩ = .lt ∧ IdReg.cmp ⟨1 <<< 18⟩ ⟨0⟩ = .lt ∧
    IdReg.cmp ⟨2 <<< 18⟩ ⟨0⟩ = .lt :=
  ⟨by decide, by decide,
    (cmp_strict_total_order ⟨2 <<< 18⟩ ⟨1 <<< 18⟩ ⟨0⟩).2 (by decide) (by decide)⟩

/-- C3: for same-kind register values the comparison is the reverse of the
numeric comparison of the raw identifier values, and an exact identifier tie
is broken by frame kind: RTR clear (data frame) compares greater than RTR
set (remote frame). -/
theorem cmp_same_kind_spec (a b : IdReg) (hk : a.is_extended = b.is_extended) :
    (idRawOf a < idRawOf b → IdReg.cmp a b = .gt) ∧
    (idRawOf b < idRawOf a → IdReg.cmp a b = .lt) ∧
    (idRawOf a = idRawOf b →
      (a.rtr = false → b.rtr = true → IdReg.cmp a b = .gt) ∧
      (a.rtr = true → b.rtr = false → IdReg.cmp a b = .lt)) := by
  cases hx : a.is_extended
  · have hbx : b.is_extended = false := by rw [← hk, hx]
    rw [cmp_ss a b hx hbx, idRawOf_std a hx, idRawOf_std b hbx]
    refine ⟨fun h => ?_, fun h => ?_, fun h => ⟨fun h1 h2 => ?_, fun h1 h2 => ?_⟩⟩
    · rw [Nat.compare_eq_lt.mpr h]
      rfl
    · rw [Nat.compare_eq_gt.mpr h]
      rfl
    · rw [Nat.compare_eq_eq.mpr h, h1, h2]
      rfl
    · rw [Nat.compare_eq_eq.mpr h, h1, h2]
      rfl
  · have hbx : b.is_extended = true := by rw [← hk, hx]
    rw [cmp_ee a b hx hbx, idRawOf_ext a hx, idRawOf_ext b hbx]
    refine ⟨fun h => ?_, fun h => ?_, fun h => ⟨fun h1 h2 => ?_, fun h1 h2 => ?_⟩⟩
    · rw [Nat.compare_eq_lt.mpr h]
      rfl
    · rw [Nat.compare_eq_gt.mpr h]
      rfl
    · rw [Nat.compare_eq_eq.mpr h, h1, h2]
      rfl
    · rw [Nat.compare_eq_eq.mpr h, h1, h2]
      rfl

/-- C3 witness: Standard 0x100 outranks Standard 0x200; and at identifier
tie, data frame outranks remote frame. -/
theorem cmp_same_kind_spec_witness :
    IdReg.cmp ⟨0x100 <<< 18⟩ ⟨0x200 <<< 18⟩ = .gt ∧
    IdReg.cmp ⟨0x100 <<< 18⟩ ⟨(0x100 <<< 18) + 2 ^ 29⟩ = .gt :=
  ⟨(cmp_same_kind_spec ⟨0x100 <<< 18⟩ ⟨0x200 <<< 18⟩ (by decide)).1 (by decide),
    ((cmp_same_kind_spec ⟨0x100 <<< 18⟩ ⟨(0x100 <<< 18) + 2 ^ 29⟩ (by decide)).2.2
      (by decide)).1 (by decide) (by decide)⟩

/-- C4 counterexample: for a register value whose RTR bit is already set,
`with_rtr(true)` then `with_rtr(false)` does not return the original bit
pattern — it returns the original with RTR cleared. -/
theorem with_rtr_double_toggle_counterexample :
    ((IdReg.mk (2 ^ 29)).with_rtr true).with_rtr false ≠ ⟨2 ^ 29⟩ := by
  decide

/-- C4 (amended): `with_rtr(true)` then `with_rtr(false)` yields the original
value with the RTR bit cleared — bit-identical to the original exactly when
the original's RTR flag was clear; and each toggle preserves the extracted
identifier and the XTD flag. -/
theorem with_rtr_double_toggle_amended (r : IdReg) (h32 : r.val < 2 ^ 32) :
    ((r.with_rtr true).with_rtr false) = r.with_rtr false ∧
    (r.rtr = false → (r.with_rtr true).with_rtr false = r) ∧
    (∀ b : Bool, (r.with_rtr b).to_id = r.to_id ∧
      (r.with_rtr b).is_extended = r.is_extended) := by
  have key1 : ((r.with_rtr true).with_rtr false).val = r.val &&& 0xDFFFFFFF := by
    show ((r.val ||| 1 <<< IdReg.RTR_SHIFT) &&& 0xDFFFFFFF) = r.val &&& 0xDFFFFFFF
    have h : (1 <<< IdReg.RTR_SHIFT : Nat) &&& 0xDFFFFFFF = 0 := by decide
    rw [Nat.and_distrib_right, h, Nat.or_zero]
  refine ⟨val_inj key1, fun hr => ?_,
    fun b => ⟨with_rtr_to_id r b, with_rtr_is_extended r b⟩⟩
  apply val_inj
  rw [key1]
  exact and_notRtrMask_eq_self h32 ((rtr_eq_testBit r).symm.trans hr)

/-- C4 witness: a standard data-frame register value (RTR clear) returns to
the original bit pattern after set-then-clear. -/
theorem with_rtr_double_toggle_amended_witness :
    ((IdReg.mk (0x100 <<< 18)).with_rtr true).with_rtr false = ⟨0x100 <<< 18⟩ :=
  (with_rtr_double_toggle_amended ⟨0x100 <<< 18⟩ (by decide)).2.1 (by decide)

/-- C5: extraction is always in range — the standard branch produces a value
at most 0x7FF and the extended branch at most 0x1FFFFFFF, so the
precondition of the validation-bypassing constructors holds for every
register value, extraneous bits included. -/
theorem to_id_in_range (r : IdReg) : validId r.to_id := by
  rw [to_id_eq]
  cases h : r.is_extended
  · rw [if_neg Bool.false_ne_true]
    show r.pr ≤ 0x7FF
    have := pr_lt r
    omega
  · rw [if_pos rfl]
    show r.as_raw_id ≤ 0x1FFFFFFF
    exact Nat.and_le_right

/-- C6: packing a valid standard identifier and extracting yields it back
unchanged; likewise for a valid extended identifier. -/
theorem pack_extract_roundtrip (v w : Nat) (hv : v ≤ 0x7FF) (hw : w ≤ 0x1FFFFFFF) :
    (idRegFromId (Id.Standard ⟨v⟩)).to_id = Id.Standard ⟨v⟩ ∧
    (idRegFromId (Id.Extended ⟨w⟩)).to_id = Id.Extended ⟨w⟩ :=
  ⟨new_standard_to_id hv, new_extended_to_id hw⟩

/-- C6 witness: round trip at standard 0x123 and extended 0x12345678. -/
theorem pack_extract_roundtrip_witness :
    (idRegFromId (Id.Standard ⟨0x123⟩)).to_id = Id.Standard ⟨0x123⟩ ∧
    (idRegFromId (Id.Extended ⟨0x12345678⟩)).to_id = Id.Extended ⟨0x12345678⟩ :=
  pack_extract_roundtrip 0x123 0x12345678 (by decide) (by decide)

/-- C7: the standard constructor places the 11 identifier bits at bit offset
18 with XTD (bit 30) and RTR (bit 29) clear; the extended constructor places
the 29 bits at offset 0 with XTD set and RTR clear. -/
theorem construct_layout (v w : Nat) (hv : v ≤ 0x7FF) (hw : w ≤ 0x1FFFFFFF) :
    (idRegFromId (Id.Standard ⟨v⟩)).val = v * 2 ^ 18 ∧
    (idRegFromId (Id.Standard ⟨v⟩)).is_extended = false ∧
    (idRegFromId (Id.Standard ⟨v⟩)).rtr = false ∧
    (idRegFromId (Id.Extended ⟨w⟩)).val = 2 ^ 30 + w ∧
    (idRegFromId (Id.Extended ⟨w⟩)).is_extended = true ∧
    (idRegFromId (Id.Extended ⟨w⟩)).rtr = false :=
  ⟨new_standard_val hv, new_standard_is_extended hv, new_standard_rtr hv,
    new_extended_val hw, new_extended_is_extended hw, new_extended_rtr hw⟩

/-- C7 witness: layout at standard 0x123 and extended 0x12345678. -/
theorem construct_layout_witness :
    (idRegFromId (Id.Standard ⟨0x123⟩)).val = 0x123 * 2 ^ 18 ∧
    (idRegFromId (Id.Standard ⟨0x123⟩)).is_extended = false ∧
    (idRegFromId (Id.Standard ⟨0x123⟩)).rtr = false ∧
    (idRegFromId (Id.Extended ⟨0x12345678⟩)).val = 2 ^ 30 + 0x12345678 ∧
    (idRegFromId (Id.Extended ⟨0x12345678⟩)).is_extended = true ∧
    (idRegFromId (Id.Extended ⟨0x12345678⟩)).rtr = false :=
  construct_layout 0x123 0x12345678 (by decide) (by decide)

/-- C8: rebuilding a register value with `from_register` from an identifier's
raw register-field bits and an RTR/XTD flag pair matching the identifier,
then extracting, yields the same identifier as constructing directly from
that identifier with the same RTR flag and extracting — namely the
identifier itself. -/
theorem from_register_roundtrip (id : Id) (hid : validId id)
    (rf : RemoteTransmissionRequest) :
    (IdReg.from_register (idRegFromId id).as_raw_id rf (idTypeFromId id)).to_id
      = ((idRegFromId id).with_rtr (rtrToBool rf)).to_id ∧
    ((idRegFromId id).with_rtr (rtrToBool rf)).to_id = id := by
  have h2 : ((idRegFromId id).with_rtr (rtrToBool rf)).to_id = id := by
    rw [with_rtr_to_id]
    cases id with
    | Standard s =>
      cases s
      exact new_standard_to_id hid
    | Extended e =>
      cases e
      exact new_extended_to_id hid
  have h1 :
      (IdReg.from_register (idRegFromId id).as_raw_id rf (idTypeFromId id)).to_id
        = id := by
    have e1 : (IdReg.from_register (idRegFromId id).as_raw_id rf
        (idTypeFromId id)).as_raw_id = (idRegFromId id).as_raw_id := by
      rw [from_register_as_raw_id, as_raw_id_and_em]
    have hbit : Nat.testBit (idRegFromId id).as_raw_id 30 = false :=
      Nat.testBit_lt_two_pow (lt_trans (as_raw_id_lt _) (by norm_num))
    cases id with
    | Standard s =>
      obtain ⟨v⟩ := s
      have e2 : (IdReg.from_register (idRegFromId (Id.Standard ⟨v⟩)).as_raw_id rf
          (idTypeFromId (Id.Standard ⟨v⟩))).is_extended
            = (idRegFromId (Id.Standard ⟨v⟩)).is_extended := by
        rw [from_register_is_extended, hbit]
        simp [idTypeFromId, idRegFromId,
          new_standard_is_extended (show v ≤ 0x7FF from hid)]
      exact (to_id_congr _ _ e1 e2).trans (new_standard_to_id hid)
    | Extended e =>
      obtain ⟨w⟩ := e
      have e2 : (IdReg.from_register (idRegFromId (Id.Extended ⟨w⟩)).as_raw_id rf
          (idTypeFromId (Id.Extended ⟨w⟩))).is_extended
            = (idRegFromId (Id.Extended ⟨w⟩)).is_extended := by
        rw [from_register_is_extended, hbit]
        simp [idTypeFromId, idRegFromId,
          new_extended_is_extended (show w ≤ 0x1FFFFFFF from hid)]
      exact (to_id_congr _ _ e1 e2).trans (new_extended_to_id hid)
  exact ⟨h1.trans h2.symm, h2⟩

/-- C8 witness: standard identifier 0x100 with the remote-frame flag. -/
theorem from_register_roundtrip_witness :
    (IdReg.from_register (idRegFromId (Id.Standard ⟨0x100⟩)).as_raw_id
        RemoteTransmissionRequest.TransmitRemoteFrame
        (idTypeFromId (Id.Standard ⟨0x100⟩))).to_id
      = ((idRegFromId (Id.Standard ⟨0x100⟩)).with_rtr
          (rtrToBool RemoteTransmissionRequest.TransmitRemoteFrame)).to_id ∧
    ((idRegFromId (Id.Standard ⟨0x100⟩)).with_rtr
        (rtrToBool RemoteTransmissionRequest.TransmitRemoteFrame)).to_id
      = Id.Standard ⟨0x100⟩ :=
  from_register_roundtrip (Id.Standard ⟨0x100⟩) (by decide)
    RemoteTransmissionRequest.TransmitRemoteFrame

/-- C9: the toggle `with_rtr` sets or clears exactly bit 29 according to the boolean
and leaves every other bit of the 32-bit value unchanged (the receiver is
taken by value, so the original is never mutated). -/
theorem with_rtr_bit_effect (r : IdReg) (b : Bool) (h32 : r.val < 2 ^ 32) :
    (r.with_rtr b).val.testBit 29 = b ∧
    ∀ i, i ≠ 29 → (r.with_rtr b).val.testBit i = r.val.testBit i := by
  cases b
  · refine ⟨?_, fun i hi => ?_⟩
    · show (r.val &&& 0xDFFFFFFF).testBit 29 = false
      rw [Nat.testBit_and, testBit_notRtrMask_29, Bool.and_false]
    · show (r.val &&& 0xDFFFFFFF).testBit i = r.val.testBit i
      rw [Nat.testBit_and]
      rcases Nat.lt_or_ge i 32 with h | h
      · rw [testBit_notRtrMask i h hi, Bool.and_true]
      · have hx : r.val.testBit i = false :=
          Nat.testBit_lt_two_pow
            (lt_of_lt_of_le h32 (Nat.pow_le_pow_right (by norm_num) h))
        rw [hx, Bool.false_and]
  · refine ⟨?_, fun i hi => ?_⟩
    · show (r.val ||| 1 <<< IdReg.RTR_SHIFT).testBit 29 = true
      have h : Nat.testBit (1 <<< IdReg.RTR_SHIFT) 29 = true := by decide
      rw [Nat.testBit_or, h, Bool.or_true]
    · show (r.val ||| 1 <<< IdReg.RTR_SHIFT).testBit i = r.val.testBit i
      have h : Nat.testBit (1 <<< IdReg.RTR_SHIFT) i = false := by
        have e : (1 <<< IdReg.RTR_SHIFT : Nat) = 2 ^ 29 := by decide
        rw [e]
        exact Nat.testBit_two_pow_of_ne (by omega)
      rw [Nat.testBit_or, h, Bool.or_false]

/-- C9 witness: setting RTR on value 0x12345 sets bit 29 and leaves bit 3
unchanged. -/
theorem with_rtr_bit_effect_witness :
    (IdReg.with_rtr ⟨0x12345⟩ true).val.testBit 29 = true ∧
    (IdReg.with_rtr ⟨0x12345⟩ true).val.testBit 3 = (0x12345 : Nat).testBit 3 :=
  ⟨(with_rtr_bit_effect ⟨0x12345⟩ true (by decide)).1,
    (with_rtr_bit_effect ⟨0x12345⟩ true (by decide)).2 3 (by decide)⟩

/-- C10: the reconstruction `from_register` masks nothing, so flag bits already present in the
raw argument override the indicators: bit 30 set in the raw value makes the
result extended even under the standard indicator, and bit 29 set makes it a
remote frame even under the data-frame indicator. -/
theorem from_register_no_mask_overrides :
    (∀ x rf, Nat.testBit x 30 = true →
      (IdReg.from_register x rf IdType.StandardId).is_extended = true) ∧
    (∀ x xt, Nat.testBit x 29 = true →
      (IdReg.from_register x RemoteTransmissionRequest.TransmitDataFrame xt).rtr
        = true) := by
  constructor
  · intro x rf h
    rw [from_register_is_extended x rf IdType.StandardId, h, Bool.true_or]
  · intro x xt h
    rw [from_register_rtr x xt RemoteTransmissionRequest.TransmitDataFrame, h,
      Bool.true_or]

/-- C10 witness: raw value `2^30` under the standard indicator reads back as
extended; raw value `2^29` under the data-frame indicator reads back as a
remote frame. -/
theorem from_register_no_mask_overrides_witness :
    (IdReg.from_register (2 ^ 30) RemoteTransmissionRequest.TransmitDataFrame
      IdType.StandardId).is_extended = true ∧
    (IdReg.from_register (2 ^ 29) RemoteTransmissionRequest.TransmitDataFrame
      IdType.StandardId).rtr = true :=
  ⟨from_register_no_mask_overrides.1 (2 ^ 30)
      RemoteTransmissionRequest.TransmitDataFrame (by decide),
    from_register_no_mask_overrides.2 (2 ^ 29) IdType.StandardId (by decide)⟩

end Fdcan
